import Mathlib

/-
Verification of the segment time-model and analytics engine of the
machine-segment-tracker repository.

The definitions below are shallow embeddings of the JavaScript source:

 * backend time utilities (src/unnamed/part_003): calculateDuration,
   validateTimeRange, checkOverlaps, calculateTotalDurations,
   sortSegmentsChronologically;
 * frontend time utilities (src/frontend/src/utils/timeUtils.js):
   calculateDurationInMinutes, calculateSegmentWidth, calculateSegmentPosition;
 * frontend validation utilities (src/unnamed/part_013): isValidTimeFormat,
   isEndTimeAfterStartTime, hasOverlappingSegments, isDateInRange,
   validateSegmentForm;
 * the mongoose Segment model (src/unnamed/part_001): the pre-save hook;
 * the getStats percentage computation (src/backend/src/config/database.js);
 * the timeline widget statistics (src/unnamed/part_009): calculateMachineStats.

Times and dates are modelled as records of their numeric fields (the regexes
in the source validate exactly the numeric ranges encoded in the validity
predicates here).  JavaScript Date / moment instants are modelled as integer
seconds since the Unix epoch via the standard civil-calendar day number; all
instants compared by the source live in whole seconds, so no precision is
lost.  Functions that throw in the source are modelled with Option/Except.
-/

namespace SegmentTracker

/-- Time of day, the parse of an HH:MM:SS string into its three numeric
fields (the source splits on the colon and maps Number over the parts). -/
structure Time where
  hh : Nat
  mm : Nat
  ss : Nat
deriving DecidableEq, Repr

/-- The HH:MM:SS format check.  The backend regex is
caret ([01]d|2[0-3]):([0-5]d):([0-5]d) dollar and the frontend regex also
allows a single-digit hour; on parsed numeric fields both accept exactly
hours 0-23, minutes 0-59, seconds 0-59. -/
def isValidTimeFormat (t : Time) : Bool :=
  decide (t.hh < 24) && decide (t.mm < 60) && decide (t.ss < 60)

/-- Seconds from midnight of a time of day. -/
def timeSec (t : Time) : Int :=
  (t.hh : Int) * 3600 + (t.mm : Int) * 60 + (t.ss : Int)

/-- Calendar date, the parse of a YYYY-MM-DD string into its fields. -/
structure Date where
  year : Nat
  month : Nat
  day : Nat
deriving DecidableEq, Repr

/-- Days since 1970-01-01 of a civil date (the standard days-from-civil
algorithm, with truncating integer division exactly as in its C++ original);
this is how a JavaScript Date or moment turns YYYY-MM-DD into an instant. -/
def daysFromCivil (y m d : Int) : Int :=
  let yy := if m <= 2 then y - 1 else y
  let era := (if yy >= 0 then yy else yy - 399) / 400
  let yoe := yy - era * 400
  let mp := (m + 9) % 12
  let doy := (153 * mp + 2) / 5 + d - 1
  let doe := yoe * 365 + yoe / 4 - yoe / 100 + doy
  era * 146097 + doe - 719468

/-- Day number of a Date. -/
def dateDays (d : Date) : Int :=
  daysFromCivil (d.year : Int) (d.month : Int) (d.day : Int)

/-- The instant (in seconds since the epoch) denoted by a date plus a time
of day: the parse of a date-T-time string by moment or new Date. -/
def instantSec (d : Date) (t : Time) : Int :=
  dateDays d * 86400 + timeSec t

/-- The fixed date 2000-01-01 that the frontend validator uses to compare
two times of day. -/
def date2000 : Date := ⟨2000, 1, 1⟩

/-- A stored segment record: id (assigned by storage), date, startTime,
endTime, machineName, segmentType. -/
structure Segment where
  id : Option Nat
  date : Date
  startTime : Time
  endTime : Time
  machineName : String
  segmentType : String
deriving DecidableEq, Repr

/-- Modelled from the spec, section 4.1: the difference in seconds between
the end and start instants after adding 24 hours (86400 seconds) to the end
exactly when the end is earlier than the start.  Used to compare the code
against the spec's duration rule. -/
def specResolvedDiffSec (startSec endSec : Int) : Int :=
  (if endSec < startSec then endSec + 86400 else endSec) - startSec

/-- The spec's derived durationMinutes of a segment (section 3): rollover
difference in whole minutes. -/
def durationMinutesOf (s : Segment) : Int :=
  specResolvedDiffSec (timeSec s.startTime) (timeSec s.endTime) / 60

/-- Rollover-resolved end instant of a segment: one day is added when the
literal end instant is before the start instant (the adjustment both the
backend utilities and the spec apply). -/
def resolvedEndSec (s : Segment) : Int :=
  if instantSec s.date s.endTime < instantSec s.date s.startTime then
    instantSec s.date s.endTime + 86400
  else
    instantSec s.date s.endTime

/-- Modelled from the spec, section 4.3: strict intersection of the
rollover-resolved intervals of two segments (touching endpoints excluded). -/
def specOverlapsB (a b : Segment) : Bool :=
  decide (instantSec a.date a.startTime < resolvedEndSec b) &&
  decide (instantSec b.date b.startTime < resolvedEndSec a)

/-
Backend time utilities (src/unnamed/part_003).
-/

/-- calculateDuration(startTime, endTime, date) from the backend time
utilities: parses both times on the given date, adds one day to the end
when it is before the start, and returns the moment diff in whole minutes
(truncated).  Returns none where the source throws on an invalid time
format. -/
def calculateDuration (startTime endTime : Time) (date : Date) : Option Int :=
  if isValidTimeFormat startTime && isValidTimeFormat endTime then
    let start := instantSec date startTime
    let e := instantSec date endTime
    let e2 := if e < start then e + 86400 else e
    some ((e2 - start) / 60)
  else
    none

/-- validateTimeRange(startTime, endTime, date) from the backend time
utilities: applies the same one-day rollover to the end and throws
(modelled as error) when the adjusted end is not strictly after the
start. -/
def validateTimeRange (startTime endTime : Time) (date : Date) : Except String Bool :=
  if isValidTimeFormat startTime && isValidTimeFormat endTime then
    let start := instantSec date startTime
    let e := instantSec date endTime
    let eAdjusted := if e < start then e + 86400 else e
    if eAdjusted ≤ start then Except.error "End time must be after start time"
    else Except.ok true
  else
    Except.error "Invalid time format. Use HH:MM:SS"

/-- Comparator on dates: localeCompare of two well-formed YYYY-MM-DD strings,
i.e. lexicographic on (year, month, day). -/
def dateCmp (a b : Date) : Ordering :=
  (compare a.year b.year).then ((compare a.month b.month).then (compare a.day b.day))

/-- Comparator on times of day: localeCompare of two well-formed HH:MM:SS
strings, i.e. lexicographic on (hh, mm, ss). -/
def timeCmp (a b : Time) : Ordering :=
  (compare a.hh b.hh).then ((compare a.mm b.mm).then (compare a.ss b.ss))

/-- The sort comparator of sortSegmentsChronologically: date first, then
startTime; true when a strictly precedes b. -/
def segBefore (a b : Segment) : Bool :=
  match dateCmp a.date b.date with
  | Ordering.lt => true
  | Ordering.gt => false
  | Ordering.eq => timeCmp a.startTime b.startTime == Ordering.lt

/-- Stable insertion of a segment into an already sorted list: the new
element goes after existing elements with an equal key, matching the stable
Array.prototype.sort of the source. -/
def insertChrono (s : Segment) : List Segment → List Segment
  | [] => [s]
  | t :: rest => if segBefore s t then s :: t :: rest else t :: insertChrono s rest

/-- sortSegmentsChronologically(segments): a stable sort by (date,
startTime). -/
def sortSegmentsChronologically (segments : List Segment) : List Segment :=
  segments.foldl (fun sorted s => insertChrono s sorted) []

/-- One entry of the checkOverlaps report. -/
structure OverlapReport where
  segment1 : Segment
  segment2 : Segment
  overlapMinutes : Int
deriving DecidableEq, Repr

/-- The adjacent-pair scan of checkOverlaps: for each consecutive pair of
the sorted list, rollover-resolve both ends and report when the current
segment's resolved end is strictly after the next segment's start, with the
overlap magnitude as a truncated moment diff in minutes. -/
def checkOverlapsGo : List Segment → List OverlapReport
  | [] => []
  | [_] => []
  | current :: next :: rest =>
    let currentEnd := resolvedEndSec current
    let nextStart := instantSec next.date next.startTime
    (if nextStart < currentEnd then
      [⟨current, next, (currentEnd - nextStart) / 60⟩]
    else []) ++ checkOverlapsGo (next :: rest)

/-- checkOverlaps(segments, machineName) from the backend time utilities:
filter to the machine, sort chronologically, scan adjacent pairs. -/
def checkOverlaps (segments : List Segment) (machineName : String) : List OverlapReport :=
  let machineSegments := segments.filter (fun s => s.machineName == machineName)
  let sortedSegments := sortSegmentsChronologically machineSegments
  checkOverlapsGo sortedSegments

/-- Modelled from the spec, section 4.3: findOverlaps filters to the given
machine, sorts chronologically by (date, startTime), and reports exactly the
adjacent pairs whose first rollover-resolved end is strictly after the
second start, each with the overlap magnitude in whole minutes. -/
def specFindOverlaps (segments : List Segment) (machineName : String) : List OverlapReport :=
  let sorted := sortSegmentsChronologically (segments.filter (fun s => s.machineName == machineName))
  (sorted.zip sorted.tail).filterMap (fun p =>
    if instantSec p.2.date p.2.startTime < resolvedEndSec p.1 then
      some ⟨p.1, p.2, (resolvedEndSec p.1 - instantSec p.2.date p.2.startTime) / 60⟩
    else none)

/-- The per-type accumulator of calculateTotalDurations (its keys are
exactly uptime, downtime and idle). -/
structure Totals where
  uptime : Int
  downtime : Int
  idle : Int
deriving DecidableEq, Repr

/-- Adding one segment's duration to the accumulator: only the three keys
present in the totals object are updated (the source tests membership with
the in operator, so select and anything else is skipped). -/
def addTotals (t : Totals) (segmentType : String) (duration : Int) : Totals :=
  if segmentType == "uptime" then { t with uptime := t.uptime + duration }
  else if segmentType == "downtime" then { t with downtime := t.downtime + duration }
  else if segmentType == "idle" then { t with idle := t.idle + duration }
  else t

/-- The forEach loop of calculateTotalDurations: the duration of every
segment is computed (and the whole call throws, modelled none, on the first
invalid time format) before the type test decides whether it is added. -/
def totalsGo (acc : Totals) : List Segment → Option Totals
  | [] => some acc
  | s :: rest =>
    match calculateDuration s.startTime s.endTime s.date with
    | none => none
    | some dur => totalsGo (addTotals acc s.segmentType dur) rest

/-- calculateTotalDurations(segments) from the backend time utilities
(the minutes part; the source additionally formats each total as a
human-readable string). -/
def calculateTotalDurations (segments : List Segment) : Option Totals :=
  totalsGo ⟨0, 0, 0⟩ segments

/-- The spec-side per-type sum: total durationMinutes of the segments of
one type. -/
def sumDurations (segmentType : String) (segments : List Segment) : Int :=
  ((segments.filter (fun s => s.segmentType == segmentType)).map durationMinutesOf).sum

/-
Frontend time utilities (src/frontend/src/utils/timeUtils.js).
-/

/-- The total-minutes value the frontend computes for a time of day:
hours * 60 + minutes + seconds / 60 (exact rational arithmetic models the
JavaScript number arithmetic of the source). -/
def frontendTotalMinutes (t : Time) : ℚ :=
  (t.hh : ℚ) * 60 + (t.mm : ℚ) + (t.ss : ℚ) / 60

/-- calculateDurationInMinutes(startTime, endTime): difference of the
total-minutes values, with 24*60 minutes added to the end when it is
smaller than the start. -/
def calculateDurationInMinutes (startTime endTime : Time) : ℚ :=
  let s := frontendTotalMinutes startTime
  let e := frontendTotalMinutes endTime
  let e2 := if e < s then e + 24 * 60 else e
  e2 - s

/-- calculateSegmentWidth(startTime, endTime, totalMinutes): duration over
axis length, times 100. -/
def calculateSegmentWidth (startTime endTime : Time) (totalMinutes : ℚ) : ℚ :=
  calculateDurationInMinutes startTime endTime / totalMinutes * 100

/-- The default day start 00:00:00 of calculateSegmentPosition. -/
def dayStartDefault : Time := ⟨0, 0, 0⟩

/-- calculateSegmentPosition(startTime, dayStartTime, totalMinutes): offset
from the day start over axis length, times 100. -/
def calculateSegmentPosition (startTime dayStartTime : Time) (totalMinutes : ℚ) : ℚ :=
  calculateDurationInMinutes dayStartTime startTime / totalMinutes * 100

/-
Frontend validation utilities (src/unnamed/part_013).
-/

/-- isRequired on a string value: trim() is not the empty string, i.e. some
character is not whitespace. -/
def isRequiredStr (s : String) : Bool :=
  s.toList.any (fun c => !c.isWhitespace)

/-- isValidMachineName(name): nonempty and matching the identifier regex
(alphanumeric plus hyphen and underscore). -/
def isValidMachineName (name : String) : Bool :=
  !(name == "") && name.toList.all (fun c => c.isAlphanum || c == '-' || c == '_')

/-- isValidSegmentType(type): one of the three capitalized allowed values
of the frontend validator. -/
def isValidSegmentType (segmentType : String) : Bool :=
  segmentType == "Uptime" || segmentType == "Downtime" || segmentType == "Idle"

/-- isEndTimeAfterStartTime(startTime, endTime): true when either time is
missing; false when either has an invalid format; otherwise both times are
parsed on the fixed date 2000-01-01 (no rollover) and compared strictly. -/
def isEndTimeAfterStartTime (startTime endTime : Option Time) : Bool :=
  match startTime, endTime with
  | some s, some e =>
    if !(isValidTimeFormat s) || !(isValidTimeFormat e) then false
    else decide (instantSec date2000 s < instantSec date2000 e)
  | _, _ => true

/-- The three-clause interval test of hasOverlappingSegments, on the raw
(not rollover-resolved) instants of the candidate (ns, ne) and of an
existing segment (es, ee): new start inside existing, or new end inside
existing, or new contains existing. -/
def overlapsPair (ns ne es ee : Int) : Bool :=
  (decide (es ≤ ns) && decide (ns < ee)) ||
  (decide (es < ne) && decide (ne ≤ ee)) ||
  (decide (ns ≤ es) && decide (ee ≤ ne))

/-- hasOverlappingSegments(newSegment, existingSegments): filters the
existing segments to the same machineName and same date, excluding the
candidate's own id when it has one, and tests the three-clause interval
condition against each; both interval ends are parsed on the segment's own
date with no rollover. -/
def hasOverlappingSegments (newId : Option Nat) (newDate : Date)
    (newStartTime newEndTime : Time) (newMachineName : String)
    (existingSegments : List Segment) : Bool :=
  let machineSegments := existingSegments.filter (fun s =>
    s.machineName == newMachineName && s.date == newDate &&
    (newId.isNone || !(s.id == newId)))
  if machineSegments.isEmpty then false
  else
    let ns := instantSec newDate newStartTime
    let ne := instantSec newDate newEndTime
    machineSegments.any (fun s =>
      overlapsPair ns ne (instantSec s.date s.startTime) (instantSec s.date s.endTime))

/-- isDateInRange(dateStr, rangeInDays): false when missing; otherwise the
absolute difference between the date's midnight instant and the current
instant (new Date(), modelled by the explicit nowMs parameter), in
milliseconds, rounded up to whole days, must be at most rangeInDays. -/
def isDateInRange (date : Option Date) (nowMs rangeInDays : Int) : Bool :=
  match date with
  | none => false
  | some d =>
    let dateMs := dateDays d * 86400000
    let diffTime := (dateMs - nowMs).natAbs
    let diffDays := (diffTime + 86399999) / 86400000
    decide ((diffDays : Int) ≤ rangeInDays)

/-- The form data validated by validateSegmentForm; absent or blank inputs
are modelled as none. -/
structure FormData where
  id : Option Nat
  date : Option Date
  startTime : Option Time
  endTime : Option Time
  machineName : Option String
  segmentType : Option String
deriving DecidableEq, Repr

/-- The error map of validateSegmentForm: one slot per field plus the
general (form-level) slot. -/
structure ValidationErrors where
  date : Option String
  startTime : Option String
  endTime : Option String
  machineName : Option String
  segmentType : Option String
  general : Option String
deriving DecidableEq, Repr

/-- An empty error map (Object.keys(errors).length === 0). -/
def noErrors (e : ValidationErrors) : Bool :=
  e.date.isNone && e.startTime.isNone && e.endTime.isNone &&
  e.machineName.isNone && e.segmentType.isNone && e.general.isNone

/-- The validity flag plus error map returned by validateSegmentForm. -/
structure ValidationResult where
  isValid : Bool
  errors : ValidationErrors
deriving DecidableEq, Repr

/-- validateSegmentForm(formData, existingSegments), with the wall-clock
instant read by isDateInRange made an explicit nowMs parameter.  The stages
follow the source in order: per-field presence and format checks, the
cross-field end-after-start check (writing to the endTime slot), the
overlap check (only when date, startTime, endTime and machineName are
error-free; writing to the general slot), and last the 365-day date-range
check (writing to the date slot).  The unreachable fallback of the overlap
stage returns none: the guard ensures the four fields are present. -/
def validateSegmentForm (formData : FormData) (existingSegments : List Segment)
    (nowMs : Int) : ValidationResult :=
  let dateErr : Option String :=
    if formData.date.isNone then some "Date is required" else none
  let startErr : Option String :=
    match formData.startTime with
    | none => some "Start time is required"
    | some t => if isValidTimeFormat t then none else some "Invalid time format (HH:mm:ss)"
  let endErr : Option String :=
    match formData.endTime with
    | none => some "End time is required"
    | some t => if isValidTimeFormat t then none else some "Invalid time format (HH:mm:ss)"
  let machineErr : Option String :=
    match formData.machineName with
    | none => some "Machine name is required"
    | some s =>
      if !(isRequiredStr s) then some "Machine name is required"
      else if isValidMachineName s then none else some "Invalid machine name format"
  let typeErr : Option String :=
    match formData.segmentType with
    | none => some "Segment type is required"
    | some s =>
      if !(isRequiredStr s) then some "Segment type is required"
      else if isValidSegmentType s then none else some "Invalid segment type"
  let endErr2 : Option String :=
    if startErr.isNone && endErr.isNone &&
        !(isEndTimeAfterStartTime formData.startTime formData.endTime) then
      some "End time must be after start time"
    else endErr
  let generalErr : Option String :=
    if dateErr.isNone && startErr.isNone && endErr2.isNone && machineErr.isNone then
      match formData.date, formData.startTime, formData.endTime, formData.machineName with
      | some d, some st, some en, some mn =>
        if hasOverlappingSegments formData.id d st en mn existingSegments then
          some "This segment overlaps with an existing segment for this machine"
        else none
      | _, _, _, _ => none
    else none
  let dateErr2 : Option String :=
    if dateErr.isNone && !(isDateInRange formData.date nowMs 365) then
      some "Date must be within 1 year from today"
    else dateErr
  let errors : ValidationErrors := ⟨dateErr2, startErr, endErr2, machineErr, typeErr, generalErr⟩
  ⟨noErrors errors, errors⟩

/-
The mongoose Segment model (src/unnamed/part_001).
-/

/-- The machine-name normalization of the pre-save hook: a nonempty name
whose first character lowercases to m gets its first character replaced by
an uppercase M. -/
def normalizeMachineName (name : String) : String :=
  if name.isEmpty then name
  else if name.front.toLower == 'm' then "M" ++ name.drop 1
  else name

/-- The pre-save hook of the Segment schema: the end instant gets one day
added only when it is before the start instant AND its hour field is
strictly smaller than the start's hour field; the save is rejected when the
adjusted end is not strictly after the start, and otherwise the machine
name is normalized and the save proceeds. -/
def presaveCheck (seg : Segment) : Except String Segment :=
  let start := instantSec seg.date seg.startTime
  let e := instantSec seg.date seg.endTime
  let e2 := if e < start ∧ seg.endTime.hh < seg.startTime.hh then e + 86400 else e
  if e2 ≤ start then Except.error "End time must be after start time"
  else Except.ok { seg with machineName := normalizeMachineName seg.machineName }

/-- True exactly on the ok constructor of an Except value. -/
def isOkB {ε α : Type} (x : Except ε α) : Bool :=
  match x with
  | Except.ok _ => true
  | Except.error _ => false

/-- The error message of an Except value, none on ok. -/
def errorMsg {α : Type} (x : Except String α) : Option String :=
  match x with
  | Except.error e => some e
  | Except.ok _ => none

/-
The getStats percentage computation (src/backend/src/config/database.js)
and the timeline widget statistics (src/unnamed/part_009).
-/

/-- A JavaScript number as produced by the percentage arithmetic: finite,
one of the infinities, or NaN. -/
inductive JSNum where
  | finite (q : ℚ)
  | posInf
  | negInf
  | nan
deriving DecidableEq, Repr

/-- JavaScript division: finite quotient for a nonzero divisor; positive or
negative infinity for a nonzero value over zero; NaN for zero over zero. -/
def jsDiv (a b : ℚ) : JSNum :=
  if b ≠ 0 then JSNum.finite (a / b)
  else if 0 < a then JSNum.posInf
  else if a < 0 then JSNum.negInf
  else JSNum.nan

/-- Multiplication of a JavaScript number by 100 (the infinities and NaN
are absorbing). -/
def jsMul100 : JSNum → JSNum
  | JSNum.finite q => JSNum.finite (q * 100)
  | x => x

/-- Math.round: half-up rounding on a finite number; the infinities and
NaN pass through. -/
def jsRound : JSNum → JSNum
  | JSNum.finite q => JSNum.finite ((⌊q + 1/2⌋ : ℤ) : ℚ)
  | x => x

/-- One entry of the byType facet of the getStats aggregation: the type name
and its summed duration. -/
structure TypeStat where
  typeName : String
  totalDuration : ℚ
deriving DecidableEq, Repr

/-- A byType entry with the percentage getStats attaches to it. -/
structure TypeStatWithPercentage where
  typeName : String
  totalDuration : ℚ
  percentage : JSNum
deriving DecidableEq, Repr

/-- The percentage computation of getStats: the grand total is the sum of
all byType durations and each entry's percentage is
Math.round(duration / total * 100), with no guard for a zero total (the
source also attaches a formatted duration string, not modelled). -/
def segmentTypesWithPercentages (segmentTypes : List TypeStat) : List TypeStatWithPercentage :=
  let totalDuration := segmentTypes.foldl (fun acc t => acc + t.totalDuration) 0
  segmentTypes.map (fun t =>
    ⟨t.typeName, t.totalDuration, jsRound (jsMul100 (jsDiv t.totalDuration totalDuration))⟩)

/-- The per-segment duration summed by the byType facet of the getStats
aggregation pipeline: (end instant - start instant) converted from
milliseconds to minutes, with NO rollover adjustment, so it is negative for
a stored segment whose end time is numerically before its start time. -/
def aggregationDurationMinutes (s : Segment) : ℚ :=
  ((instantSec s.date s.endTime - instantSec s.date s.startTime : Int) : ℚ) / 60

/-- A segment as consumed by the timeline widget: a status and a
precomputed duration. -/
structure TSeg where
  status : String
  duration : ℚ
deriving DecidableEq, Repr

/-- The numeric fields of calculateMachineStats from the timeline widget
(the source formats the four durations as strings): per-status sums and an
uptime percentage that is explicitly guarded to 0 when the total duration
is not positive. -/
structure MachineStats where
  totalDuration : ℚ
  uptimeDuration : ℚ
  downtimeDuration : ℚ
  idleDuration : ℚ
  uptimePercentage : ℤ
deriving DecidableEq, Repr

/-- calculateMachineStats(machine) from the timeline widget, on the
machine's segment list. -/
def calculateMachineStats (segments : List TSeg) : MachineStats :=
  let totalDuration := (segments.map (fun s => s.duration)).foldl (· + ·) 0
  let uptimeDuration :=
    ((segments.filter (fun s => s.status == "uptime")).map (fun s => s.duration)).foldl (· + ·) 0
  let downtimeDuration :=
    ((segments.filter (fun s => s.status == "downtime")).map (fun s => s.duration)).foldl (· + ·) 0
  let idleDuration :=
    ((segments.filter (fun s => s.status == "idle")).map (fun s => s.duration)).foldl (· + ·) 0
  let uptimePercentage : ℤ :=
    if 0 < totalDuration then ⌊uptimeDuration / totalDuration * 100 + 1/2⌋ else 0
  ⟨totalDuration, uptimeDuration, downtimeDuration, idleDuration, uptimePercentage⟩

/-
Concrete records used by the counterexamples and witnesses.
-/

/-- The date 2023-01-01 used by the concrete scenarios. -/
def dJan : Date := ⟨2023, 1, 1⟩

/-- The wall-clock instant at midnight of 2023-01-01, in milliseconds. -/
def nowJan : Int := dateDays dJan * 86400000

/-- A segment crossing midnight: 23:00:00 to 01:00:00 on 2023-01-01. -/
def segNight : Segment := ⟨some 1, dJan, ⟨23, 0, 0⟩, ⟨1, 0, 0⟩, "M1", "uptime"⟩

/-- A late-evening segment 23:30:00 to 23:45:00 on 2023-01-01, inside the
resolved interval of segNight. -/
def segLate : Segment := ⟨some 2, dJan, ⟨23, 30, 0⟩, ⟨23, 45, 0⟩, "M1", "uptime"⟩

/-- A morning candidate form: 09:00:00 to 10:00:00 on machine M1. -/
def candMorning : FormData :=
  ⟨none, some dJan, some ⟨9, 0, 0⟩, some ⟨10, 0, 0⟩, some "M1", some "Uptime"⟩

/-- The morning candidate as a segment record. -/
def candMorningSeg : Segment := ⟨none, dJan, ⟨9, 0, 0⟩, ⟨10, 0, 0⟩, "M1", "Uptime"⟩

/-- A rollover candidate form: 23:30:00 to 00:15:00 on machine M1. -/
def candRollover : FormData :=
  ⟨none, some dJan, some ⟨23, 30, 0⟩, some ⟨0, 15, 0⟩, some "M1", some "Uptime"⟩

/-- The rollover candidate as the segment the backend would save. -/
def segRollover : Segment := ⟨none, dJan, ⟨23, 30, 0⟩, ⟨0, 15, 0⟩, "M1", "uptime"⟩

/-- An ordinary morning segment 08:00:00 to 09:00:00, saved as uptime. -/
def segMorn8 : Segment := ⟨some 1, dJan, ⟨8, 0, 0⟩, ⟨9, 0, 0⟩, "M1", "uptime"⟩

/-- A stored uptime segment 23:30:00 to 22:30:00: its end is before its
start but its end hour 22 is below its start hour 23, so the pre-save hook
applies the rollover and accepts it; the getStats aggregation gives it a
negative duration of -60 minutes. -/
def segNeg : Segment := ⟨some 2, dJan, ⟨23, 30, 0⟩, ⟨22, 30, 0⟩, "M1", "uptime"⟩

/-- An existing half-past-nine segment 09:30:00 to 10:30:00 on machine M2. -/
def segM2 : Segment := ⟨some 5, dJan, ⟨9, 30, 0⟩, ⟨10, 30, 0⟩, "M2", "uptime"⟩


/-
Helper lemmas.
-/

/-- Adding the same day offset to two times preserves their order. -/
lemma instantSec_lt_iff (d : Date) (t1 t2 : Time) :
    instantSec d t1 < instantSec d t2 ↔ timeSec t1 < timeSec t2 := by
  unfold instantSec
  omega

/-- Seconds from midnight are nonnegative. -/
lemma timeSec_nonneg (t : Time) : 0 ≤ timeSec t := by
  unfold timeSec
  omega

/-- A format-valid time of day is below 86400 seconds. -/
lemma timeSec_lt_day (t : Time) (h : isValidTimeFormat t = true) : timeSec t < 86400 := by
  simp only [isValidTimeFormat, Bool.and_eq_true, decide_eq_true_eq] at h
  unfold timeSec
  omega

/-- On format-valid times, calculateDuration succeeds and returns the
spec's rollover difference in whole minutes, independently of the date. -/
lemma calcDuration_valid (t1 t2 : Time) (d : Date)
    (h1 : isValidTimeFormat t1 = true) (h2 : isValidTimeFormat t2 = true) :
    calculateDuration t1 t2 d = some (specResolvedDiffSec (timeSec t1) (timeSec t2) / 60) := by
  unfold calculateDuration
  rw [h1, h2]
  simp only [Bool.and_self, if_true]
  have hnum :
      (if instantSec d t2 < instantSec d t1 then instantSec d t2 + 86400 else instantSec d t2)
          - instantSec d t1
        = specResolvedDiffSec (timeSec t1) (timeSec t2) := by
    unfold specResolvedDiffSec instantSec
    split_ifs <;> omega
  rw [hnum]


/-- The ordinary JavaScript number arithmetic of the frontend total-minutes
value agrees with seconds over 60. -/
lemma frontendTotalMinutes_eq (t : Time) :
    frontendTotalMinutes t = ((timeSec t : Int) : ℚ) / 60 := by
  unfold frontendTotalMinutes timeSec
  push_cast
  ring

/-- The frontend duration in (possibly fractional) minutes equals the
spec's rollover difference in seconds divided by 60. -/
lemma calculateDurationInMinutes_eq (t1 t2 : Time) :
    calculateDurationInMinutes t1 t2
      = ((specResolvedDiffSec (timeSec t1) (timeSec t2) : Int) : ℚ) / 60 := by
  unfold calculateDurationInMinutes specResolvedDiffSec
  rw [frontendTotalMinutes_eq, frontendTotalMinutes_eq]
  dsimp only
  have h60 : (0 : ℚ) < 60 := by norm_num
  have hcond : (((timeSec t2 : Int) : ℚ) / 60 < ((timeSec t1 : Int) : ℚ) / 60)
      ↔ timeSec t2 < timeSec t1 := by
    rw [div_lt_div_iff_of_pos_right h60]
    exact_mod_cast Int.cast_lt
  by_cases h : timeSec t2 < timeSec t1
  · rw [if_pos (hcond.mpr h), if_pos h]
    push_cast
    ring
  · rw [if_neg (fun hc => h (hcond.mp hc)), if_neg h]
    push_cast
    ring


/-
Claim theorems.
-/

/-- C1: for every date D and well-formed HH:MM:SS times S and E,
durationMinutes(D, S, E) interprets both times on D and, exactly when the
end instant is earlier than the start instant, adds 24 hours to the end
instant before taking the difference in minutes; in particular
durationMinutes("2023-01-01", "23:30:00", "00:15:00") equals 45 (in the
backend calculateDuration and in the frontend calculateDurationInMinutes
alike). -/
theorem C1_duration_rollover :
    (∀ (d : Date) (t1 t2 : Time),
        isValidTimeFormat t1 = true → isValidTimeFormat t2 = true →
        calculateDuration t1 t2 d = some (specResolvedDiffSec (timeSec t1) (timeSec t2) / 60)
          ∧ (instantSec d t2 < instantSec d t1 ↔ timeSec t2 < timeSec t1))
    ∧ calculateDuration ⟨23, 30, 0⟩ ⟨0, 15, 0⟩ dJan = some 45
    ∧ calculateDurationInMinutes ⟨23, 30, 0⟩ ⟨0, 15, 0⟩ = 45 := by
  refine ⟨fun d t1 t2 h1 h2 => ⟨calcDuration_valid t1 t2 d h1 h2, ?_⟩, by decide, ?_⟩
  · unfold instantSec
    omega
  · norm_num [calculateDurationInMinutes, frontendTotalMinutes]

/-- Witness for C1: the universally quantified part evaluated at the date
2023-01-01 with the times 08:00:00 and 09:30:00. -/
theorem C1_duration_rollover_witness :
    calculateDuration ⟨8, 0, 0⟩ ⟨9, 30, 0⟩ dJan
        = some (specResolvedDiffSec (timeSec ⟨8, 0, 0⟩) (timeSec ⟨9, 30, 0⟩) / 60)
      ∧ (instantSec dJan ⟨9, 30, 0⟩ < instantSec dJan ⟨8, 0, 0⟩
          ↔ timeSec ⟨9, 30, 0⟩ < timeSec ⟨8, 0, 0⟩) :=
  C1_duration_rollover.1 dJan ⟨8, 0, 0⟩ ⟨9, 30, 0⟩ (by decide) (by decide)

/-- C10: the Segment model's pre-save hook applies the day rollover only
when the end is before the start AND the end's hour field is strictly less
than the start's hour field: for a format-valid segment whose end time is
numerically earlier than its start time, the save succeeds exactly when the
end's hour is strictly smaller, and in particular a segment with start
09:30:00 and end 09:15:00 (same clock hour) is rejected with the error
message End time must be after start time. -/
theorem C10_presave_hour_guard :
    (∀ seg : Segment,
        isValidTimeFormat seg.startTime = true → isValidTimeFormat seg.endTime = true →
        timeSec seg.endTime < timeSec seg.startTime →
        (isOkB (presaveCheck seg) = true ↔ seg.endTime.hh < seg.startTime.hh))
    ∧ errorMsg (presaveCheck ⟨none, dJan, ⟨9, 30, 0⟩, ⟨9, 15, 0⟩, "M1", "uptime"⟩)
        = some "End time must be after start time" := by
  constructor
  · intro seg h1 h2 hlt
    have hs := timeSec_lt_day seg.startTime h1
    have he0 := timeSec_nonneg seg.endTime
    simp only [presaveCheck, instantSec]
    split_ifs with hc1 hc2 hc3
    · exfalso
      omega
    · exact ⟨fun _ => hc1.2, fun _ => rfl⟩
    · refine ⟨fun hx => ?_, fun hx => absurd ⟨by omega, hx⟩ hc1⟩
      exact absurd hx (by simp [isOkB])
    · exfalso
      omega
  · decide

/-- Witness for C10: the universally quantified part evaluated at a
format-valid segment with start 10:30:00 and end 10:15:00. -/
theorem C10_presave_hour_guard_witness :
    isOkB (presaveCheck ⟨none, dJan, ⟨10, 30, 0⟩, ⟨10, 15, 0⟩, "M2", "idle"⟩) = true
      ↔ (Time.mk 10 15 0).hh < (Time.mk 10 30 0).hh :=
  C10_presave_hour_guard.1 ⟨none, dJan, ⟨10, 30, 0⟩, ⟨10, 15, 0⟩, "M2", "idle"⟩
    (by decide) (by decide) (by decide)


/-- The adjacent-pair loop of checkOverlaps agrees with the zip-with-tail
filterMap formulation used by the spec-side description. -/
lemma checkOverlapsGo_eq (l : List Segment) :
    checkOverlapsGo l = (l.zip l.tail).filterMap (fun p =>
      if instantSec p.2.date p.2.startTime < resolvedEndSec p.1 then
        some ⟨p.1, p.2, (resolvedEndSec p.1 - instantSec p.2.date p.2.startTime) / 60⟩
      else none) := by
  induction l with
  | nil => rfl
  | cons a t ih =>
    cases t with
    | nil => rfl
    | cons b r =>
      simp only [checkOverlapsGo, List.tail_cons, List.zip_cons_cons, List.filterMap_cons]
      by_cases h : instantSec b.date b.startTime < resolvedEndSec a
      · rw [if_pos h, if_pos h, ih]
        simp [List.tail_cons]
      · rw [if_neg h, if_neg h, ih]
        simp [List.tail_cons]

/-- C7: for every segment collection and machine name, checkOverlaps
filters to the machine's segments, sorts them by (date, startTime),
compares only chronologically adjacent pairs, and reports exactly those
adjacent pairs whose first rollover-resolved end is strictly after the
second's start, with overlapMinutes the first's end minus the second's
start in whole minutes — i.e. it equals the spec-side specFindOverlaps. -/
theorem C7_checkOverlaps_adjacent :
    ∀ (segments : List Segment) (machineName : String),
      checkOverlaps segments machineName = specFindOverlaps segments machineName := by
  intro segments machineName
  unfold checkOverlaps specFindOverlaps
  exact checkOverlapsGo_eq _


/-- C8: for every segment and axis length in minutes, the timeline
projection yields widthPercent equal to the segment's (rollover) duration
in minutes divided by the axis minutes times 100, and leftPercent equal to
the minutes from the fixed day start 00:00:00 to the segment's startTime
divided by the axis minutes times 100 (offset from start of day, not from
the first segment). -/
theorem C8_timeline_projection :
    ∀ (t1 t2 : Time) (axisMinutes : ℚ),
      isValidTimeFormat t1 = true → isValidTimeFormat t2 = true → 0 < axisMinutes →
      calculateSegmentWidth t1 t2 axisMinutes
          = ((specResolvedDiffSec (timeSec t1) (timeSec t2) : Int) : ℚ) / 60 / axisMinutes * 100
        ∧ calculateSegmentPosition t1 dayStartDefault axisMinutes
          = ((timeSec t1 : Int) : ℚ) / 60 / axisMinutes * 100 := by
  intro t1 t2 axisMinutes _ _ _
  constructor
  · unfold calculateSegmentWidth
    rw [calculateDurationInMinutes_eq]
  · unfold calculateSegmentPosition
    rw [calculateDurationInMinutes_eq]
    have h0 : specResolvedDiffSec (timeSec dayStartDefault) (timeSec t1) = timeSec t1 := by
      have := timeSec_nonneg t1
      unfold specResolvedDiffSec dayStartDefault timeSec
      simp only
      split_ifs <;> omega
    rw [h0]

/-- Witness for C8: the projection equations evaluated for the segment
13:00:00 to 14:30:00 on a 24-hour axis. -/
theorem C8_timeline_projection_witness :
    calculateSegmentWidth ⟨13, 0, 0⟩ ⟨14, 30, 0⟩ 1440
        = ((specResolvedDiffSec (timeSec ⟨13, 0, 0⟩) (timeSec ⟨14, 30, 0⟩) : Int) : ℚ) / 60 / 1440 * 100
      ∧ calculateSegmentPosition ⟨13, 0, 0⟩ dayStartDefault 1440
        = ((timeSec ⟨13, 0, 0⟩ : Int) : ℚ) / 60 / 1440 * 100 :=
  C8_timeline_projection ⟨13, 0, 0⟩ ⟨14, 30, 0⟩ 1440 (by decide) (by decide) (by norm_num)


/-- Unfolding of the spec-side per-type sum over a cons cell. -/
lemma sumDurations_cons (ty : String) (s : Segment) (rest : List Segment) :
    sumDurations ty (s :: rest)
      = (if s.segmentType == ty then durationMinutesOf s else 0) + sumDurations ty rest := by
  unfold sumDurations
  rw [List.filter_cons]
  by_cases h : s.segmentType == ty
  · rw [if_pos h, if_pos h]
    simp
  · rw [if_neg h, if_neg h]
    simp

/-- The totals loop, on format-valid segments, computes the three spec-side
per-type sums on top of its accumulator. -/
lemma totalsGo_eq (l : List Segment) :
    ∀ acc : Totals,
      (∀ s ∈ l, isValidTimeFormat s.startTime = true ∧ isValidTimeFormat s.endTime = true) →
      totalsGo acc l = some ⟨acc.uptime + sumDurations "uptime" l,
        acc.downtime + sumDurations "downtime" l, acc.idle + sumDurations "idle" l⟩ := by
  induction l with
  | nil =>
    intro acc _
    simp [totalsGo, sumDurations]
  | cons s rest ih =>
    intro acc h
    obtain ⟨hs1, hs2⟩ := h s (List.mem_cons_self s rest)
    have hrest : ∀ x ∈ rest, isValidTimeFormat x.startTime = true ∧ isValidTimeFormat x.endTime = true :=
      fun x hx => h x (List.mem_cons_of_mem s hx)
    rw [totalsGo, calcDuration_valid s.startTime s.endTime s.date hs1 hs2]
    have hdur : specResolvedDiffSec (timeSec s.startTime) (timeSec s.endTime) / 60 = durationMinutesOf s := rfl
    rw [hdur]
    dsimp only
    rw [ih (addTotals acc s.segmentType (durationMinutesOf s)) hrest]
    rw [sumDurations_cons, sumDurations_cons, sumDurations_cons]
    unfold addTotals
    split_ifs with h1 h2 h3 <;>
      simp_all [Totals.mk.injEq, beq_iff_eq] <;> omega

/-- C6: totalsByType (calculateTotalDurations) sums durations only over
segments typed uptime, downtime or idle, excluding select-typed segments
entirely; in particular a collection in which every segment is
select-typed yields the all-zero totals. -/
theorem C6_totals_select_excluded :
    (∀ segments : List Segment,
        (∀ s ∈ segments, isValidTimeFormat s.startTime = true ∧ isValidTimeFormat s.endTime = true) →
        calculateTotalDurations segments
          = some ⟨sumDurations "uptime" segments, sumDurations "downtime" segments,
              sumDurations "idle" segments⟩)
    ∧ (∀ segments : List Segment,
        (∀ s ∈ segments, s.segmentType = "select") →
        (∀ s ∈ segments, isValidTimeFormat s.startTime = true ∧ isValidTimeFormat s.endTime = true) →
        calculateTotalDurations segments = some ⟨0, 0, 0⟩) := by
  have hmain : ∀ segments : List Segment,
      (∀ s ∈ segments, isValidTimeFormat s.startTime = true ∧ isValidTimeFormat s.endTime = true) →
      calculateTotalDurations segments
        = some ⟨sumDurations "uptime" segments, sumDurations "downtime" segments,
            sumDurations "idle" segments⟩ := by
    intro segments h
    unfold calculateTotalDurations
    rw [totalsGo_eq segments ⟨0, 0, 0⟩ h]
    simp
  refine ⟨hmain, fun segments hsel hval => ?_⟩
  rw [hmain segments hval]
  have hz : ∀ ty : String, ty ≠ "select" → sumDurations ty segments = 0 := by
    intro ty hty
    unfold sumDurations
    have : segments.filter (fun s => s.segmentType == ty) = [] := by
      rw [List.filter_eq_nil_iff]
      intro s hs
      rw [hsel s hs]
      simp [beq_iff_eq]
      exact fun hc => hty hc.symm
    rw [this]
    simp
  rw [hz "uptime" (by simp), hz "downtime" (by simp), hz "idle" (by simp)]

/-- Witness for C6: a one-element all-select collection with valid times
yields the all-zero totals. -/
theorem C6_totals_select_excluded_witness :
    calculateTotalDurations [⟨none, dJan, ⟨8, 0, 0⟩, ⟨9, 0, 0⟩, "M1", "select"⟩] = some ⟨0, 0, 0⟩ :=
  C6_totals_select_excluded.2 [⟨none, dJan, ⟨8, 0, 0⟩, ⟨9, 0, 0⟩, "M1", "select"⟩]
    (by decide) (by decide)


/-- On genuine intervals (start before end on both sides), the three-clause
test of hasOverlappingSegments is exactly strict interval intersection. -/
lemma overlapsPair_strict (ns ne es ee : Int) (h1 : ns < ne) (h2 : es < ee) :
    overlapsPair ns ne es ee = true ↔ (ns < ee ∧ es < ne) := by
  simp only [overlapsPair, Bool.or_eq_true, Bool.and_eq_true, decide_eq_true_eq]
  omega

/-- On a segment that does not cross midnight, the rollover-resolved end is
the literal end instant. -/
lemma resolvedEndSec_no_midnight (s : Segment) (h : timeSec s.startTime < timeSec s.endTime) :
    resolvedEndSec s = instantSec s.date s.endTime := by
  unfold resolvedEndSec
  rw [if_neg]
  rw [instantSec_lt_iff]
  omega

/-- On two segments that do not cross midnight, the spec's overlap test is
the strict intersection of the literal intervals. -/
lemma specOverlapsB_no_midnight (a b : Segment)
    (ha : timeSec a.startTime < timeSec a.endTime)
    (hb : timeSec b.startTime < timeSec b.endTime) :
    specOverlapsB a b = true ↔
      (instantSec a.date a.startTime < instantSec b.date b.endTime
        ∧ instantSec b.date b.startTime < instantSec a.date a.endTime) := by
  unfold specOverlapsB
  rw [resolvedEndSec_no_midnight a ha, resolvedEndSec_no_midnight b hb]
  simp [Bool.and_eq_true, decide_eq_true_eq]

/-- C4 counterexample: as stated the claim fails on the code.  The segment
23:00:00-01:00:00 and the segment 23:30:00-23:45:00 share machine M1 and
date 2023-01-01; with rollover applied independently to each their
intervals strictly intersect (the spec-side test is true), yet the
validator's pairwise check hasOverlappingSegments, which never applies a
rollover, reports no overlap. -/
theorem C4_overlaps_counterexample :
    segNight.machineName = segLate.machineName ∧ segNight.date = segLate.date
      ∧ specOverlapsB segNight segLate = true
      ∧ overlapsPair (instantSec dJan ⟨23, 0, 0⟩) (instantSec dJan ⟨1, 0, 0⟩)
          (instantSec dJan ⟨23, 30, 0⟩) (instantSec dJan ⟨23, 45, 0⟩) = false
      ∧ hasOverlappingSegments (some 1) dJan ⟨23, 0, 0⟩ ⟨1, 0, 0⟩ "M1" [segLate] = false := by
  decide

/-- C4 (amended): for two segments on the same machine and date neither of
which crosses midnight (start time numerically before end time), the
pairwise overlap test of hasOverlappingSegments holds if and only if
a.start < b.end and b.start < a.end (strict intersection, which under the
no-midnight hypothesis coincides with the spec's rollover-resolved test);
and touching endpoints, 08:00-09:00 next to 09:00-10:00 on the same machine
and date, are not reported as overlap in either direction. -/
theorem C4_overlaps_strict_intersection :
    (∀ a b : Segment, a.machineName = b.machineName → a.date = b.date →
        timeSec a.startTime < timeSec a.endTime →
        timeSec b.startTime < timeSec b.endTime →
        (overlapsPair (instantSec a.date a.startTime) (instantSec a.date a.endTime)
            (instantSec b.date b.startTime) (instantSec b.date b.endTime) = true
          ↔ specOverlapsB a b = true))
    ∧ hasOverlappingSegments (some 4) dJan ⟨9, 0, 0⟩ ⟨10, 0, 0⟩ "M1"
        [⟨some 3, dJan, ⟨8, 0, 0⟩, ⟨9, 0, 0⟩, "M1", "uptime"⟩] = false
    ∧ hasOverlappingSegments (some 3) dJan ⟨8, 0, 0⟩ ⟨9, 0, 0⟩ "M1"
        [⟨some 4, dJan, ⟨9, 0, 0⟩, ⟨10, 0, 0⟩, "M1", "uptime"⟩] = false := by
  refine ⟨fun a b hm hd ha hb => ?_, by decide, by decide⟩
  have h1 : instantSec b.date a.startTime < instantSec b.date a.endTime := by
    rw [instantSec_lt_iff]
    exact ha
  have h2 : instantSec b.date b.startTime < instantSec b.date b.endTime := by
    rw [instantSec_lt_iff]
    exact hb
  rw [hd, overlapsPair_strict _ _ _ _ h1 h2, specOverlapsB_no_midnight a b ha hb, hd]

/-- Witness for C4 (amended): the equivalence evaluated at the touching
pair 08:00-09:00 and 09:00-10:00 on machine M1. -/
theorem C4_overlaps_strict_intersection_witness :
    overlapsPair (instantSec dJan ⟨8, 0, 0⟩) (instantSec dJan ⟨9, 0, 0⟩)
        (instantSec dJan ⟨9, 0, 0⟩) (instantSec dJan ⟨10, 0, 0⟩) = true
      ↔ specOverlapsB ⟨some 3, dJan, ⟨8, 0, 0⟩, ⟨9, 0, 0⟩, "M1", "uptime"⟩
          ⟨some 4, dJan, ⟨9, 0, 0⟩, ⟨10, 0, 0⟩, "M1", "uptime"⟩ = true :=
  C4_overlaps_strict_intersection.1
    ⟨some 3, dJan, ⟨8, 0, 0⟩, ⟨9, 0, 0⟩, "M1", "uptime"⟩
    ⟨some 4, dJan, ⟨9, 0, 0⟩, ⟨10, 0, 0⟩, "M1", "uptime"⟩
    rfl rfl (by decide) (by decide)


/-- The candidate-against-existing overlap scan, on segments that do not
cross midnight, holds exactly when some existing segment of the same
machine and date (the candidate's own id excluded when present) strictly
intersects the candidate in the spec's sense. -/
lemma hasOverlappingSegments_iff_spec (oid : Option Nat) (d : Date) (st en : Time)
    (mn ty : String) (existing : List Segment)
    (hlt : timeSec st < timeSec en)
    (hex : ∀ s ∈ existing, timeSec s.startTime < timeSec s.endTime) :
    hasOverlappingSegments oid d st en mn existing = true ↔
      ∃ s ∈ existing, s.machineName = mn ∧ s.date = d ∧ (oid.isNone = true ∨ s.id ≠ oid) ∧
        specOverlapsB ⟨oid, d, st, en, mn, ty⟩ s = true := by
  have hany : hasOverlappingSegments oid d st en mn existing = true ↔
      ∃ s, s ∈ existing.filter (fun s =>
          s.machineName == mn && s.date == d && (oid.isNone || !(s.id == oid))) ∧
        overlapsPair (instantSec d st) (instantSec d en)
          (instantSec s.date s.startTime) (instantSec s.date s.endTime) = true := by
    unfold hasOverlappingSegments
    dsimp only
    split_ifs with hE
    · rw [List.isEmpty_iff] at hE
      rw [hE]
      simp
    · exact List.any_eq_true
  rw [hany]
  constructor
  · rintro ⟨s, hsf, hov⟩
    rw [List.mem_filter] at hsf
    obtain ⟨hsmem, hp⟩ := hsf
    simp only [Bool.and_eq_true, Bool.or_eq_true, Bool.not_eq_true', beq_iff_eq,
      beq_eq_false_iff_ne] at hp
    obtain ⟨⟨hpm, hpd⟩, hpid⟩ := hp
    have hse := hex s hsmem
    have h1 : instantSec d st < instantSec d en := by
      rw [instantSec_lt_iff]
      exact hlt
    have h2 : instantSec s.date s.startTime < instantSec s.date s.endTime := by
      rw [instantSec_lt_iff]
      exact hse
    refine ⟨s, hsmem, hpm, hpd, hpid, ?_⟩
    rw [specOverlapsB_no_midnight ⟨oid, d, st, en, mn, ty⟩ s hlt hse]
    exact (overlapsPair_strict _ _ _ _ h1 h2).mp hov
  · rintro ⟨s, hsmem, hpm, hpd, hpid, hov⟩
    have hse := hex s hsmem
    have h1 : instantSec d st < instantSec d en := by
      rw [instantSec_lt_iff]
      exact hlt
    have h2 : instantSec s.date s.startTime < instantSec s.date s.endTime := by
      rw [instantSec_lt_iff]
      exact hse
    refine ⟨s, ?_, ?_⟩
    · rw [List.mem_filter]
      refine ⟨hsmem, ?_⟩
      simp only [Bool.and_eq_true, Bool.or_eq_true, Bool.not_eq_true', beq_iff_eq,
        beq_eq_false_iff_ne]
      exact ⟨⟨hpm, hpd⟩, hpid⟩
    · rw [specOverlapsB_no_midnight ⟨oid, d, st, en, mn, ty⟩ s hlt hse] at hov
      exact (overlapsPair_strict _ _ _ _ h1 h2).mpr hov

/-- On a candidate whose single-field checks, cross-field check and date
range check all pass, validateSegmentForm reduces to the overlap stage:
every field slot is error-free and only the general slot depends on
hasOverlappingSegments. -/
lemma validateSegmentForm_eval (oid : Option Nat) (d : Date) (st en : Time)
    (mn ty : String) (existing : List Segment) (nowMs : Int)
    (hst : isValidTimeFormat st = true) (hen : isValidTimeFormat en = true)
    (hreqm : isRequiredStr mn = true) (hmn : isValidMachineName mn = true)
    (hreqt : isRequiredStr ty = true) (hty : isValidSegmentType ty = true)
    (hrange : isDateInRange (some d) nowMs 365 = true)
    (hlt : timeSec st < timeSec en) :
    validateSegmentForm ⟨oid, some d, some st, some en, some mn, some ty⟩ existing nowMs
      = ⟨!(hasOverlappingSegments oid d st en mn existing),
         ⟨none, none, none, none, none,
          if hasOverlappingSegments oid d st en mn existing then
            some "This segment overlaps with an existing segment for this machine"
          else none⟩⟩ := by
  have hafter : isEndTimeAfterStartTime (some st) (some en) = true := by
    unfold isEndTimeAfterStartTime
    dsimp only
    rw [hst, hen]
    simp only [Bool.not_true, Bool.or_self, Bool.false_eq_true, if_false,
      decide_eq_true_eq, instantSec_lt_iff]
    exact hlt
  unfold validateSegmentForm
  simp only [hst, hen, hreqm, hmn, hreqt, hty, hafter, hrange, Option.isNone_some,
    Bool.not_true, Bool.false_eq_true, if_false, if_true, Bool.and_self]
  by_cases hov : hasOverlappingSegments oid d st en mn existing <;>
    simp [hov, noErrors]

/-- C5 counterexample: as stated the claim fails on the code.  The morning
candidate 09:00:00-10:00:00 on M1 passes every single-field check and does
NOT overlap (in the spec's rollover-resolved sense) the existing
midnight-crossing M1 segment 23:00:00-01:00:00 of the same date, yet
validateSegmentForm reports the general overlap error and rejects the
form. -/
theorem C5_validate_counterexample :
    specOverlapsB candMorningSeg segNight = false
      ∧ (validateSegmentForm candMorning [segNight] nowJan).errors.general
          = some "This segment overlaps with an existing segment for this machine"
      ∧ (validateSegmentForm candMorning [segNight] nowJan).isValid = false := by
  decide

/-- C5 (amended): for every candidate that passes all single-field checks,
whose end time is numerically after its start time, whose date passes the
date-range check, and whose existing segments all lie within one day
(start before end), validateSegmentForm reports the single general
(non-field-scoped) error exactly when the candidate strictly intersects
some existing segment of the same machineName and date, excluding the
record bearing the candidate's own id when updating; and it validates
successfully exactly when there is no such overlap (in particular the same
pair of intervals on two different machines validates successfully). -/
theorem C5_validate_overlap_general :
    ∀ (oid : Option Nat) (d : Date) (st en : Time) (mn ty : String)
      (existing : List Segment) (nowMs : Int),
      isValidTimeFormat st = true → isValidTimeFormat en = true →
      isRequiredStr mn = true → isValidMachineName mn = true →
      isRequiredStr ty = true → isValidSegmentType ty = true →
      isDateInRange (some d) nowMs 365 = true →
      timeSec st < timeSec en →
      (∀ s ∈ existing, timeSec s.startTime < timeSec s.endTime) →
      ((validateSegmentForm ⟨oid, some d, some st, some en, some mn, some ty⟩ existing nowMs).errors.general ≠ none
        ↔ ∃ s ∈ existing, s.machineName = mn ∧ s.date = d ∧ (oid.isNone = true ∨ s.id ≠ oid) ∧
            specOverlapsB ⟨oid, d, st, en, mn, ty⟩ s = true)
      ∧ ((validateSegmentForm ⟨oid, some d, some st, some en, some mn, some ty⟩ existing nowMs).isValid = true
        ↔ ¬ ∃ s ∈ existing, s.machineName = mn ∧ s.date = d ∧ (oid.isNone = true ∨ s.id ≠ oid) ∧
            specOverlapsB ⟨oid, d, st, en, mn, ty⟩ s = true) := by
  intro oid d st en mn ty existing nowMs hst hen hreqm hmn hreqt hty hrange hlt hex
  rw [validateSegmentForm_eval oid d st en mn ty existing nowMs hst hen hreqm hmn hreqt hty hrange hlt]
  rw [← hasOverlappingSegments_iff_spec oid d st en mn ty existing hlt hex]
  by_cases hov : hasOverlappingSegments oid d st en mn existing = true
  · simp [hov]
  · simp [hov]

/-- Witness for C5 (amended): the spec's no-overlap scenario across two
machines, candidate 09:00:00-10:00:00 on M1 against the existing
09:30:00-10:30:00 segment on M2, evaluated through the theorem. -/
theorem C5_validate_overlap_general_witness :
    ((validateSegmentForm ⟨none, some dJan, some ⟨9, 0, 0⟩, some ⟨10, 0, 0⟩, some "M1", some "Uptime"⟩ [segM2] nowJan).errors.general ≠ none
      ↔ ∃ s ∈ [segM2], s.machineName = "M1" ∧ s.date = dJan ∧ ((none : Option Nat).isNone = true ∨ s.id ≠ none) ∧
          specOverlapsB ⟨none, dJan, ⟨9, 0, 0⟩, ⟨10, 0, 0⟩, "M1", "Uptime"⟩ s = true)
    ∧ ((validateSegmentForm ⟨none, some dJan, some ⟨9, 0, 0⟩, some ⟨10, 0, 0⟩, some "M1", some "Uptime"⟩ [segM2] nowJan).isValid = true
      ↔ ¬ ∃ s ∈ [segM2], s.machineName = "M1" ∧ s.date = dJan ∧ ((none : Option Nat).isNone = true ∨ s.id ≠ none) ∧
          specOverlapsB ⟨none, dJan, ⟨9, 0, 0⟩, ⟨10, 0, 0⟩, "M1", "Uptime"⟩ s = true) :=
  C5_validate_overlap_general none dJan ⟨9, 0, 0⟩ ⟨10, 0, 0⟩ "M1" "Uptime" [segM2] nowJan
    (by decide) (by decide) (by decide) (by decide) (by decide) (by decide) (by decide)
    (by decide) (by decide)


/-- C3: the frontend validator's cross-field check applies no rollover, so
the candidate with startTime 23:30:00 and endTime 00:15:00 — which the
claim (and the backend) say passes the end-after-start check — is rejected
by validateSegmentForm with the error on the endTime field, while the same
times pass both the backend pre-save hook of the Segment model and the
backend validateTimeRange utility. -/
theorem C3_crossfield_rollover_divergence :
    isEndTimeAfterStartTime (some ⟨23, 30, 0⟩) (some ⟨0, 15, 0⟩) = false
      ∧ (validateSegmentForm candRollover [] nowJan).isValid = false
      ∧ (validateSegmentForm candRollover [] nowJan).errors.endTime
          = some "End time must be after start time"
      ∧ isOkB (presaveCheck segRollover) = true
      ∧ isOkB (validateTimeRange ⟨23, 30, 0⟩ ⟨0, 15, 0⟩ dJan) = true := by
  decide

/-- C2: the getStats percentage computation has no divide-by-zero guard: a
byType input with the single entry (uptime, 0) has grand total zero and
yields a NaN percentage rather than zero.  The zero-total state is
reachable from stored data: the segments 08:00:00-09:00:00 and
23:30:00-22:30:00 both pass the pre-save hook and their aggregation
durations (computed without rollover) sum to zero.  The sibling
implementation calculateMachineStats guards the same division and returns
0, as the claim requires. -/
theorem C2_getStats_zero_total_nan :
    (segmentTypesWithPercentages [⟨"uptime", 0⟩]).map (fun t => t.percentage) = [JSNum.nan]
      ∧ isOkB (presaveCheck segMorn8) = true
      ∧ isOkB (presaveCheck segNeg) = true
      ∧ aggregationDurationMinutes segMorn8 + aggregationDurationMinutes segNeg = 0
      ∧ (calculateMachineStats [⟨"uptime", 0⟩]).uptimePercentage = 0 := by
  refine ⟨?_, by decide, by decide, ?_, ?_⟩
  · simp [segmentTypesWithPercentages, jsDiv, jsMul100, jsRound]
  · norm_num [aggregationDurationMinutes, instantSec, timeSec, segMorn8, segNeg]
  · simp [calculateMachineStats]

/-- C9 counterexample: validation is not independent of the wall clock.
With identical program arguments (the morning candidate and no existing
segments), validateSegmentForm returns different results at two different
clock instants (midnight of 2023-01-01, and 400 days later), because the
date-range check reads the current time. -/
theorem C9_purity_counterexample :
    ¬ ∀ nowMs nowMs' : Int,
        validateSegmentForm candMorning [] nowMs = validateSegmentForm candMorning [] nowMs' := by
  intro h
  have hc := h nowJan (nowJan + 400 * 86400000)
  revert hc
  decide

/-- The backend calculateDuration does not depend on its date argument (in
particular not on the wall-clock default used when the argument is
omitted). -/
lemma calcDuration_date_irrel (t1 t2 : Time) (d d' : Date) :
    calculateDuration t1 t2 d = calculateDuration t1 t2 d' := by
  by_cases h : isValidTimeFormat t1 = true ∧ isValidTimeFormat t2 = true
  · rw [calcDuration_valid t1 t2 d h.1 h.2, calcDuration_valid t1 t2 d' h.1 h.2]
  · have hc : (isValidTimeFormat t1 && isValidTimeFormat t2) = false := by
      rcases Decidable.not_and_iff_or_not.mp h with hn | hn
      · rw [Bool.eq_false_iff.mpr hn, Bool.false_and]
      · rw [Bool.eq_false_iff.mpr hn, Bool.and_false]
    unfold calculateDuration
    simp [hc]

/-- The totals loop is unchanged when every segment's date is rewritten
arbitrarily. -/
lemma totalsGo_date_irrel (l : List Segment) (g : Segment → Date) :
    ∀ acc : Totals,
      totalsGo acc (l.map (fun s => { s with date := g s })) = totalsGo acc l := by
  induction l with
  | nil =>
    intro acc
    rfl
  | cons s rest ih =>
    intro acc
    simp only [List.map_cons, totalsGo]
    rw [calcDuration_date_irrel s.startTime s.endTime (g s) s.date]
    cases calculateDuration s.startTime s.endTime s.date with
    | none => rfl
    | some dur => exact ih (addTotals acc s.segmentType dur)

/-- C9 (amended): duration calculation and aggregation are deterministic
functions of their explicit arguments — the backend calculateDuration does
not depend on its date argument (hence not on the wall-clock default), and
calculateTotalDurations is unchanged under any rewriting of the segment
dates — but validation is NOT clock-independent: validateSegmentForm reads
the current time through the date-range check and returns different
results for identical arguments at different instants. -/
theorem C9_core_purity :
    (∀ (t1 t2 : Time) (d d' : Date), calculateDuration t1 t2 d = calculateDuration t1 t2 d')
    ∧ (∀ (segments : List Segment) (g : Segment → Date),
        calculateTotalDurations (segments.map (fun s => { s with date := g s }))
          = calculateTotalDurations segments)
    ∧ validateSegmentForm candMorning [] nowJan
        ≠ validateSegmentForm candMorning [] (nowJan + 400 * 86400000) := by
  refine ⟨calcDuration_date_irrel, ?_, by decide⟩
  intro segments g
  unfold calculateTotalDurations
  exact totalsGo_date_irrel segments g ⟨0, 0, 0⟩

end SegmentTracker
